import Mathlib

/-!
Verification of the closed-loop velocity-controller scripts
(Tamizhanban212/Eternal_PS_InterIIT): quadrature decoding, velocity
estimation, PID control with (and without) anti-windup, actuator mapping,
and the Z-axis distance mover.

Machine floats in the Python sources are modelled as exact rationals;
Python `int(x)` on a non-negative value is the floor. Each definition is a
direct translation of the cited source function.
-/

/-! ## Quadrature decoder model (shared by all variants)

An encoder state is the pair of channel levels (A, B). A transition is a
pair (old state, new state). `phase` orders the four states along the
forward quadrature cycle 00 → 10 → 11 → 01 → 00.
-/

/-- Encoder channel levels: first component is channel A, second is channel B. -/
abbrev QState := Bool × Bool

/-- An edge event: the encoder state before and after the transition. -/
abbrev QTrans := QState × QState

/-- Position of a state on the forward quadrature cycle 00 → 10 → 11 → 01. -/
def phase (s : QState) : ZMod 4 :=
  match s with
  | (false, false) => 0
  | (true,  false) => 1
  | (true,  true)  => 2
  | (false, true)  => 3

/-- A transition is a single quadrature step: the phase advances or retreats by one. -/
def ValidTrans (t : QTrans) : Prop :=
  phase t.2 = phase t.1 + 1 ∨ phase t.2 = phase t.1 - 1

instance : DecidablePred ValidTrans := fun t => by
  unfold ValidTrans; infer_instance

/-- Signed direction of a single quadrature step: +1 for forward phase advance,
-1 otherwise (on valid transitions this is the retreat case). -/
def tdir (t : QTrans) : ℤ :=
  if phase t.2 = phase t.1 + 1 then 1 else -1

/-- True when the transition is an edge on channel A. -/
def aEdge (t : QTrans) : Bool := t.1.1 != t.2.1

/-- Signed contribution of a transition restricted to channel-A edges. -/
def sdirA (t : QTrans) : ℤ := if aEdge t then tdir t else 0

/-- Net signed number of channel-A quadrature transitions in an event sequence. -/
def netSignedA (ts : List QTrans) : ℤ := (ts.map sdirA).sum

/-- The reversed motion: each transition is traversed backwards, in reverse order. -/
def revMotion (ts : List QTrans) : List QTrans :=
  (ts.map (fun t => (t.2, t.1))).reverse

/-- Decoder of PID_control.py `encoder_callback_A`: fires on either edge of
channel A and compares the current levels of A and B (increment when equal,
decrement otherwise). Transitions without an A edge produce no callback. -/
def stepPC (c : ℤ) (t : QTrans) : ℤ :=
  if aEdge t then (if t.2.1 = t.2.2 then c + 1 else c - 1) else c

/-- Tick count of the PID_control.py decoder after an event sequence. -/
def runPC (c : ℤ) (ts : List QTrans) : ℤ := ts.foldl stepPC c

/-- Decoder of dual_pid_mdd20a.py `enc1_callback`: registered on RISING edges
of the single encoder pin and increments unconditionally. -/
def stepDP (c : ℤ) (t : QTrans) : ℤ :=
  if t.1.1 = false ∧ t.2.1 = true then c + 1 else c

/-- Tick count of the dual_pid_mdd20a.py decoder after an event sequence. -/
def runDP (c : ℤ) (ts : List QTrans) : ℤ := ts.foldl stepDP c

/-- Decoder of 1motor.py `encoder_callback`: fires on either edge of channel A
and takes the sign from the current level of channel B alone. -/
def stepOM (c : ℤ) (t : QTrans) : ℤ :=
  if aEdge t then (if t.2.2 = false then c + 1 else c - 1) else c

/-- Tick count of the 1motor.py decoder after an event sequence. -/
def runOM (c : ℤ) (ts : List QTrans) : ℤ := ts.foldl stepOM c

namespace DualPid

/-! ## dual_pid_mdd20a.py -/

/-- Counts per revolution constant CPR. -/
def CPR : ℚ := 676

/-- Control loop period SAMPLE_TIME (50 ms). -/
def SAMPLE_TIME : ℚ := 1/20

/-- Gains Kp_1, Ki_1, Kd_1. -/
def Kp1 : ℚ := 3/5
def Ki1 : ℚ := 2
def Kd1 : ℚ := 0

/-- Mutable fields of `PIDController`: integral, prev_error, prev_time. -/
structure PIDState where
  integral : ℚ
  prev_error : ℚ
  prev_time : Option ℚ
deriving Repr, DecidableEq

/-- Fresh controller as built by `PIDController.__init__` (and `reset`). -/
def PIDState.init : PIDState := ⟨0, 0, none⟩

/-- The dt computation at the top of `PIDController.update`: SAMPLE_TIME on
the first call (prev_time is None), otherwise the measured elapsed time
now - prev_time, replaced by SAMPLE_TIME when that is not positive. -/
def dtOf (prev_time : Option ℚ) (now : ℚ) : ℚ :=
  match prev_time with
  | none => SAMPLE_TIME
  | some t => if now - t ≤ 0 then SAMPLE_TIME else now - t

/-- Body of `PIDController.update`: returns the new state and the output.
The integral is committed unconditionally with no clamp. -/
def update (Kp Ki Kd : ℚ) (s : PIDState) (target measured now : ℚ) :
    PIDState × ℚ :=
  let dt := dtOf s.prev_time now
  let error := target - measured
  let integral := s.integral + error * dt
  let derivative := (error - s.prev_error) / dt
  let output := Kp * error + Ki * integral + Kd * derivative
  (⟨integral, error, some now⟩, output)

/-- Helper `counts_to_rpm`: returns 0.0 when dt is not positive, otherwise
(counts / CPR) / dt * 60. -/
def counts_to_rpm (counts dt : ℚ) : ℚ :=
  if dt ≤ 0 then 0 else counts / CPR / dt * 60

/-- One sampling step of the main loop: the measured rpm variable is
reassigned to `counts_to_rpm counts dt`, the previous value being discarded. -/
def rpmStep (prev counts dt : ℚ) : ℚ :=
  let _ := prev
  counts_to_rpm counts dt

/-- Saturation at the top of `set_motor`: clamp the signed command to
the range -100 to 100. -/
def saturate (command : ℚ) : ℚ :=
  if command > 100 then 100 else if command < -100 then -100 else command

/-- Direction pin written by `set_motor`: true (HIGH, forward) when the
saturated command is non-negative. -/
def setMotorDirFwd (command : ℚ) : Bool :=
  decide (0 ≤ saturate command)

/-- Duty cycle emitted by `set_motor`: the magnitude of the saturated command. -/
def setMotorDuty (command : ℚ) : ℚ :=
  let c := saturate command
  if 0 ≤ c then c else -c

/-- Iterated controller run used for the windup analysis: a fresh controller
updated every SAMPLE_TIME seconds with constant target 100 and measured 0. -/
def pidIter : ℕ → PIDState
  | 0 => PIDState.init
  | n + 1 => (update Kp1 Ki1 Kd1 (pidIter n) 100 0 ((n + 1 : ℚ) * SAMPLE_TIME)).1

end DualPid

namespace OneMotor

/-! ## 1motor.py and TeleOp/directionset.py (shared PI-loop shape) -/

/-- Encoder pulses per revolution PULSES_PER_REV. -/
def PULSES_PER_REV : ℚ := 20

/-- Sampling period SAMPLE_INTERVAL (100 ms). -/
def SAMPLE_INTERVAL : ℚ := 1/10

/-- Safety limits MAX_DUTY and MIN_DUTY. -/
def MAX_DUTY : ℚ := 100
def MIN_DUTY : ℚ := 0

/-- One pass of `rpm_loop`: when the measured dt is not positive the update is
skipped (`continue`) and the previous rpm is kept; otherwise
rpm = (count / PULSES_PER_REV / dt) * 60. -/
def rpmStep (prev count dt : ℚ) : ℚ :=
  if dt ≤ 0 then prev else count / PULSES_PER_REV / dt * 60

/-- Integral update of `control_loop`: commit error * SAMPLE_INTERVAL, then
clamp to the range -1000 to 1000 (max_int). -/
def integralStep (integral error : ℚ) : ℚ :=
  let i := integral + error * SAMPLE_INTERVAL
  if i > 1000 then 1000 else if i < -1000 then -1000 else i

/-- Duty clamp of `control_loop` (identical in 1motor.py and directionset.py),
parametrized by the MIN_DUTY and MAX_DUTY constants it reads: cap at maxD,
then raise anything below minD to minD. There is no exception for zero. -/
def clampDuty (minD maxD d : ℚ) : ℚ :=
  if d > maxD then maxD else if d < minD then minD else d

end OneMotor

namespace PidControl

/-! ## PID_control.py -/

/-- Encoder resolution COUNTS_PER_REVOLUTION. -/
def COUNTS_PER_REVOLUTION : ℚ := 3492/10

/-- Loop period CONTROL_INTERVAL (100 ms). -/
def CONTROL_INTERVAL : ℚ := 1/10

/-- One rpm computation of `control_loop`: the code sets
delta_time = CONTROL_INTERVAL and divides by it, ignoring the actual
elapsed wall time (passed here as `elapsed` and unused, exactly as in the
source where `current_time - last_time` is never used for the rpm). -/
def rpmStep (prev_count current_count elapsed : ℚ) : ℚ :=
  let _ := elapsed
  (current_count - prev_count) / CONTROL_INTERVAL / COUNTS_PER_REVOLUTION * 60

/-- First filter stage of `control_loop`:
v2_filt = 0.854 * rpm + 0.0728 * rpm + 0.0728 * rpm_prev. -/
def v2Filt (rpm rpm_prev : ℚ) : ℚ :=
  854/1000 * rpm + 728/10000 * rpm + 728/10000 * rpm_prev

/-- Smoothing constant alpha of the second stage. -/
def alpha : ℚ := 3/10

/-- One filter pass of `control_loop` on state (rpm_prev, rpm_filtered):
first stage `v2Filt`, then rpm_filtered = alpha * v2_filt + (1 - alpha) * rpm_filtered,
and rpm_prev is replaced by the current raw rpm. -/
def filterStep (s : ℚ × ℚ) (rpm : ℚ) : ℚ × ℚ :=
  (rpm, alpha * v2Filt rpm s.1 + (1 - alpha) * s.2)

/-- Filter state after n cycles with the raw rpm held constant at r. -/
def filterRun (s0 : ℚ × ℚ) (r : ℚ) : ℕ → ℚ × ℚ
  | 0 => s0
  | n + 1 => filterStep (filterRun s0 r n) r

/-- Integral update of the PID section of `control_loop`:
e_integral += e * CONTROL_INTERVAL, with no clamp anywhere. -/
def integralStep (e_integral e : ℚ) : ℚ :=
  e_integral + e * CONTROL_INTERVAL

/-- Direction computed by `control_loop`: 0 (backward) when u < 0, else 1. -/
def dirFwd (u : ℚ) : Bool := decide (¬ u < 0)

/-- PWM magnitude computed by `control_loop`: pwm_val = int(abs(u)),
capped at 255. Python int() on the non-negative abs(u) is the floor. -/
def pwmVal (u : ℚ) : ℤ :=
  let p := ⌊|u|⌋
  if p > 255 then 255 else p

end PidControl

namespace ZCtrl

/-! ## controller.py (ZAxisController) -/

/-- Calibration constant Z_SPEED_AT_100_PERCENT (cm per second). -/
def Z_SPEED_AT_100_PERCENT : ℚ := 12

/-- Possible outcomes of `move_distance`. Python float division by zero
raises ZeroDivisionError, modelled as an explicit outcome. -/
inductive MoveResult where
  | alreadyMoving : MoveResult
  | invalidDistance : MoveResult
  | zeroDivisionError : MoveResult
  | started (move_time : ℚ) (direction : ℤ) (speed_percent : ℚ) : MoveResult
deriving Repr, DecidableEq

/-- Body of `ZAxisController.move_distance`: reject when already moving,
take the absolute value of the distance and reject when it is not positive,
then compute speed = (speed_percent / 100) * Z_SPEED_AT_100_PERCENT and
move_time = distance / speed, which raises ZeroDivisionError when the
speed is zero. No guard is applied to speed_percent. -/
def move_distance (moving : Bool) (distance_cm : ℚ) (direction : ℤ)
    (speed_percent : ℚ) : MoveResult :=
  if moving then .alreadyMoving
  else
    let d := |distance_cm|
    if d ≤ 0 then .invalidDistance
    else
      let speed := speed_percent / 100 * Z_SPEED_AT_100_PERCENT
      if speed = 0 then .zeroDivisionError
      else .started (d / speed) direction speed_percent

end ZCtrl

/-! ## Claim-side definitions (from the wording of the specification) -/

/-- Modelled from the spec: the raw-rpm formula of the Velocity Estimator,
raw_rpm = (ticks / counts_per_revolution) / dt * 60. -/
def rawRpmSpec (ticks cpr dt : ℚ) : ℚ := ticks / cpr / dt * 60

/-- Modelled from the spec: convergence of a rational-valued sequence,
stated with explicit epsilon bounds so it is expressible over the exact
rational embedding. -/
def TendstoQ (x : ℕ → ℚ) (L : ℚ) : Prop :=
  ∀ ε : ℚ, 0 < ε → ∃ N : ℕ, ∀ n, N ≤ n → |x n - L| < ε

/-! ## Shared helper lemmas -/

/-- The dt computed by `PIDController.update` is always strictly positive. -/
lemma dtOf_pos (pt : Option ℚ) (now : ℚ) : 0 < DualPid.dtOf pt now := by
  cases pt with
  | none => norm_num [DualPid.dtOf, DualPid.SAMPLE_TIME]
  | some t =>
    by_cases h : now - t ≤ 0
    · simp only [DualPid.dtOf, if_pos h]
      norm_num [DualPid.SAMPLE_TIME]
    · simp only [DualPid.dtOf, if_neg h]
      linarith [not_le.mp h]

/-- The duty emitted by `set_motor` is the magnitude of the command capped at 100. -/
lemma setMotorDuty_eq (c : ℚ) : DualPid.setMotorDuty c = min |c| 100 := by
  unfold DualPid.setMotorDuty DualPid.saturate
  by_cases h1 : c > 100
  · have hc : |c| = c := abs_of_pos (by linarith)
    rw [if_pos h1, if_pos (by norm_num : (0:ℚ) ≤ 100), hc,
      min_eq_right (le_of_lt h1)]
  · by_cases h2 : c < -100
    · have hc : |c| = -c := abs_of_neg (by linarith)
      rw [if_neg h1, if_pos h2, if_neg (by norm_num : ¬ (0:ℚ) ≤ -100), hc,
        min_eq_right (by linarith)]
      norm_num
    · have hc : |c| ≤ 100 := abs_le.mpr ⟨by linarith, by linarith⟩
      rw [if_neg h1, if_neg h2, min_eq_left hc]
      by_cases h3 : 0 ≤ c
      · rw [if_pos h3, abs_of_nonneg h3]
      · rw [if_neg h3, abs_of_neg (not_le.mp h3)]

/-- The direction bit of `set_motor` agrees with the sign of the raw command. -/
lemma setMotorDirFwd_eq (c : ℚ) : DualPid.setMotorDirFwd c = decide (0 ≤ c) := by
  unfold DualPid.setMotorDirFwd DualPid.saturate
  apply decide_eq_decide.mpr
  by_cases h1 : c > 100
  · rw [if_pos h1]; constructor <;> intro <;> linarith
  · by_cases h2 : c < -100
    · rw [if_neg h1, if_pos h2]; constructor <;> intro <;> linarith
    · rw [if_neg h1, if_neg h2]

/-- The PWM magnitude computed by PID_control `control_loop` is the floor of the
absolute effort, capped at 255. -/
lemma pwmVal_eq (u : ℚ) : PidControl.pwmVal u = min ⌊|u|⌋ 255 := by
  unfold PidControl.pwmVal
  by_cases h : ⌊|u|⌋ > 255
  · rw [if_pos h, min_eq_right (le_of_lt h)]
  · rw [if_neg h, min_eq_left (not_lt.mp h)]

/-! ## Claim theorems -/

/-- C10: `ZAxisController.move_distance` rejects the already-moving state and a
zero distance, but applies no guard to speed_percent, so for every positive
distance a call with speed_percent = 0 hits a division by zero instead of
returning or reporting an error. -/
theorem C10_move_distance_zero_speed (d sp : ℚ) (dir : ℤ) :
    (∀ dist : ℚ, ZCtrl.move_distance true dist dir sp = .alreadyMoving) ∧
    ZCtrl.move_distance false 0 dir sp = .invalidDistance ∧
    (0 < d → ZCtrl.move_distance false d dir 0 = .zeroDivisionError) := by
  refine ⟨fun dist => rfl, ?_, ?_⟩
  · simp [ZCtrl.move_distance]
  · intro hd
    have habs : |d| = d := abs_of_pos hd
    simp [ZCtrl.move_distance, habs, not_le.mpr hd]

/-- Witness for C10 at distance 5, direction 1, speed_percent 0. -/
theorem C10_witness :
    ZCtrl.move_distance false 5 1 0 = ZCtrl.MoveResult.zeroDivisionError :=
  (C10_move_distance_zero_speed 5 7 1).2.2 (by norm_num)

/-- C7: `PIDController.update` uses SAMPLE_TIME as dt on the first call, the
measured elapsed time on later calls, falling back to SAMPLE_TIME when the
measured elapsed time is not positive; the dt used in the integral and
derivative terms is therefore always strictly positive, and the update
records the current time for the next call. -/
theorem C7_dt_selection (s : DualPid.PIDState) (Kp Ki Kd target measured now : ℚ) :
    0 < DualPid.dtOf s.prev_time now ∧
    (s.prev_time = none → DualPid.dtOf s.prev_time now = DualPid.SAMPLE_TIME) ∧
    (∀ t, s.prev_time = some t → 0 < now - t →
      DualPid.dtOf s.prev_time now = now - t) ∧
    (∀ t, s.prev_time = some t → now - t ≤ 0 →
      DualPid.dtOf s.prev_time now = DualPid.SAMPLE_TIME) ∧
    (DualPid.update Kp Ki Kd s target measured now).1.integral
      = s.integral + (target - measured) * DualPid.dtOf s.prev_time now ∧
    (DualPid.update Kp Ki Kd s target measured now).2
      = Kp * (target - measured)
        + Ki * (s.integral + (target - measured) * DualPid.dtOf s.prev_time now)
        + Kd * (((target - measured) - s.prev_error) / DualPid.dtOf s.prev_time now) ∧
    (DualPid.update Kp Ki Kd s target measured now).1.prev_time = some now := by
  refine ⟨dtOf_pos _ _, ?_, ?_, ?_, rfl, rfl, rfl⟩
  · intro h; rw [h]; rfl
  · intro t ht hpos; rw [ht]
    simp only [DualPid.dtOf, if_neg (not_le.mpr hpos)]
  · intro t ht hnp; rw [ht]
    simp only [DualPid.dtOf, if_pos hnp]

/-- Witness for C7: a second call one time unit after the first uses the
measured elapsed time 1. -/
theorem C7_witness : DualPid.dtOf (DualPid.PIDState.mk 0 0 (some 1)).prev_time 2 = 2 - 1 :=
  (C7_dt_selection ⟨0, 0, some 1⟩ 1 1 1 1 0 2).2.2.1 1 rfl (by norm_num)

/-- C6 counterexample: at effort 11/2 the PID_control mapper emits 5, which is
not min(abs(effort), max_duty) = 11/2 — the magnitude is truncated to an
integer before the cap. -/
theorem C6_cex_truncated_duty :
    PidControl.pwmVal (11/2) = 5 ∧ ((5 : ℚ) ≠ min |(11/2 : ℚ)| 255) := by
  have h5 : ⌊|(11/2 : ℚ)|⌋ = 5 := by
    rw [abs_of_pos (by norm_num : (0:ℚ) < 11/2)]
    rw [Int.floor_eq_iff]
    norm_num
  constructor
  · rw [pwmVal_eq, h5, min_eq_left (by norm_num : (5:ℤ) ≤ 255)]
  · rw [abs_of_pos (by norm_num : (0:ℚ) < 11/2)]
    norm_num

/-- C6 amended: `set_motor` emits direction forward exactly when the effort is
non-negative and duty min(abs(effort), 100); PID_control emits direction
forward exactly when the effort is non-negative and pwm min(floor(abs(u)), 255),
the magnitude being floor-truncated before the cap; in both variants the
emitted duty never exceeds the configured maximum. -/
theorem C6_actuator_mapping (c u : ℚ) :
    DualPid.setMotorDirFwd c = decide (0 ≤ c) ∧
    DualPid.setMotorDuty c = min |c| 100 ∧
    DualPid.setMotorDuty c ≤ 100 ∧
    PidControl.dirFwd u = decide (0 ≤ u) ∧
    PidControl.pwmVal u = min ⌊|u|⌋ 255 ∧
    PidControl.pwmVal u ≤ 255 := by
  refine ⟨setMotorDirFwd_eq c, setMotorDuty_eq c, ?_, ?_, pwmVal_eq u, ?_⟩
  · rw [setMotorDuty_eq]; exact min_le_right _ _
  · unfold PidControl.dirFwd
    exact decide_eq_decide.mpr not_lt
  · rw [pwmVal_eq]; exact min_le_right _ _

/-- C2 counterexample: with min_duty 40 and max_duty 100 the clamp of
`control_loop` maps an effort of exactly 0 to duty 40, not 0 — there is no
zero exception in the code. -/
theorem C2_cex_zero_floored :
    OneMotor.clampDuty 40 100 0 = 40 ∧ (40 : ℚ) ≠ 0 := by
  constructor
  · norm_num [OneMotor.clampDuty]
  · norm_num

/-- C2 amended: the duty stage of `control_loop` is a plain clamp to
the interval from min_duty to max_duty with no zero exception: for
min_duty ≤ max_duty it equals max minD (min maxD d); with min_duty 40 an
effort of magnitude 5 is raised to 40 but an effort of 0 is raised to 40 as
well, and with the configured MIN_DUTY = 0 and MAX_DUTY = 100 an effort of
magnitude 5 stays 5 (no minimum-effective-duty floor exists). -/
theorem C2_duty_clamp (minD maxD d : ℚ) :
    (minD ≤ maxD → OneMotor.clampDuty minD maxD d = max minD (min maxD d)) ∧
    OneMotor.clampDuty 40 100 5 = 40 ∧
    OneMotor.clampDuty OneMotor.MIN_DUTY OneMotor.MAX_DUTY 5 = 5 ∧
    OneMotor.clampDuty OneMotor.MIN_DUTY OneMotor.MAX_DUTY 0 = 0 := by
  refine ⟨?_, by norm_num [OneMotor.clampDuty], ?_, ?_⟩
  · intro hle
    unfold OneMotor.clampDuty
    by_cases h1 : d > maxD
    · rw [if_pos h1, min_eq_left (le_of_lt h1), max_eq_right hle]
    · by_cases h2 : d < minD
      · rw [if_neg h1, if_pos h2, min_eq_right (not_lt.mp h1),
          max_eq_left (le_of_lt h2)]
      · rw [if_neg h1, if_neg h2, min_eq_right (not_lt.mp h1),
          max_eq_right (not_lt.mp h2)]
  · norm_num [OneMotor.clampDuty, OneMotor.MIN_DUTY, OneMotor.MAX_DUTY]
  · norm_num [OneMotor.clampDuty, OneMotor.MIN_DUTY, OneMotor.MAX_DUTY]

/-- Witness for C2 amended at minD 0, maxD 100, d 7. -/
theorem C2_witness : OneMotor.clampDuty 0 100 7 = max 0 (min 100 7) :=
  (C2_duty_clamp 0 100 7).1 (by norm_num)

/-- C3 counterexample: a dual_pid_mdd20a sampling step with dt = 0 and a
previous measured rpm of 50 produces 0, not the previous value — the
previous filtered value is not reused, it is reset to zero. -/
theorem C3_cex_rpm_reset :
    DualPid.rpmStep 50 100 0 = 0 ∧ DualPid.rpmStep 50 100 0 ≠ 50 := by
  constructor
  · norm_num [DualPid.rpmStep, DualPid.counts_to_rpm]
  · norm_num [DualPid.rpmStep, DualPid.counts_to_rpm]

/-- C3 amended: on dt ≤ 0 neither variant divides by zero or raises; the
1motor rpm_loop skips the update and keeps the previous rpm, while the
dual_pid counts_to_rpm helper returns 0, resetting the measured value to
zero instead of leaving it unchanged. -/
theorem C3_nonpositive_dt (prev count dt : ℚ) :
    (dt ≤ 0 → OneMotor.rpmStep prev count dt = prev) ∧
    (dt ≤ 0 → DualPid.rpmStep prev count dt = 0) := by
  constructor
  · intro h; simp [OneMotor.rpmStep, h]
  · intro h; simp [DualPid.rpmStep, DualPid.counts_to_rpm, h]

/-- Witness for C3 amended at prev 7, count 100, dt -1. -/
theorem C3_witness :
    OneMotor.rpmStep 7 100 (-1) = 7 ∧ DualPid.rpmStep 7 100 (-1) = 0 :=
  ⟨(C3_nonpositive_dt 7 100 (-1)).1 (by norm_num),
   (C3_nonpositive_dt 7 100 (-1)).2 (by norm_num)⟩

/-- C4 counterexample: the PID_control rpm computation divides by the nominal
CONTROL_INTERVAL regardless of the actual elapsed time; when 100 ticks arrive
in a measured 1/5 second the code's value differs from the claimed formula
evaluated at the measured dt. -/
theorem C4_cex_nominal_dt :
    PidControl.rpmStep 0 100 (1/5)
      = rawRpmSpec 100 PidControl.COUNTS_PER_REVOLUTION PidControl.CONTROL_INTERVAL ∧
    PidControl.rpmStep 0 100 (1/5)
      ≠ rawRpmSpec 100 PidControl.COUNTS_PER_REVOLUTION (1/5) := by
  constructor
  · simp only [PidControl.rpmStep, rawRpmSpec]
    ring
  · norm_num [PidControl.rpmStep, rawRpmSpec, PidControl.COUNTS_PER_REVOLUTION,
      PidControl.CONTROL_INTERVAL]

/-- C4 amended: counts_to_rpm realizes raw_rpm = (ticks / CPR) / dt * 60 at the
dt its caller passes (the dual_pid loop passes the measured elapsed time),
while the PID_control loop evaluates the same formula at the nominal
CONTROL_INTERVAL rather than the measured elapsed time; the concrete
2704-count scenario evaluates to 3750/169, within 1/100 of 22.19. -/
theorem C4_raw_rpm_formula (c dt p e : ℚ) :
    (0 < dt → DualPid.counts_to_rpm c dt = rawRpmSpec c DualPid.CPR dt) ∧
    PidControl.rpmStep p c e
      = rawRpmSpec (c - p) PidControl.COUNTS_PER_REVOLUTION PidControl.CONTROL_INTERVAL ∧
    |rawRpmSpec 100 2704 (1/10) - 2219/100| < 1/100 := by
  refine ⟨?_, ?_, ?_⟩
  · intro h
    rw [DualPid.counts_to_rpm, if_neg (not_le.mpr h)]
    rfl
  · simp only [PidControl.rpmStep, rawRpmSpec]
    ring
  · have h : rawRpmSpec 100 2704 (1/10) - 2219/100 = -(11/16900) := by
      norm_num [rawRpmSpec]
    rw [h, abs_neg, abs_of_pos (by norm_num)]
    norm_num

/-- Witness for C4 amended at c 100, dt 1/10. -/
theorem C4_witness :
    DualPid.counts_to_rpm 100 (1/10) = rawRpmSpec 100 DualPid.CPR (1/10) :=
  (C4_raw_rpm_formula 100 (1/10) 0 0).1 (by norm_num)

/-- Closed form of the iterated dual_pid controller run: with constant target
100, measured 0 and calls every SAMPLE_TIME, the accumulator after n updates
is 5 * n and the recorded time is n * SAMPLE_TIME. -/
lemma pidIter_spec : ∀ n : ℕ,
    (DualPid.pidIter n).integral = 5 * n ∧
    (DualPid.pidIter n).prev_time
      = (if n = 0 then none else some ((n : ℚ) * DualPid.SAMPLE_TIME)) := by
  intro n
  induction n with
  | zero => exact ⟨by norm_num [DualPid.pidIter, DualPid.PIDState.init], rfl⟩
  | succ m ih =>
    obtain ⟨ih1, ih2⟩ := ih
    have hdt : DualPid.dtOf (DualPid.pidIter m).prev_time
        ((m + 1 : ℚ) * DualPid.SAMPLE_TIME) = DualPid.SAMPLE_TIME := by
      rw [ih2]
      by_cases hm : m = 0
      · rw [if_pos hm]; rfl
      · rw [if_neg hm]
        have : (m + 1 : ℚ) * DualPid.SAMPLE_TIME - (m : ℚ) * DualPid.SAMPLE_TIME
            = DualPid.SAMPLE_TIME := by ring
        simp only [DualPid.dtOf, this]
        rw [if_neg (by norm_num [DualPid.SAMPLE_TIME])]
    constructor
    · show (DualPid.update DualPid.Kp1 DualPid.Ki1 DualPid.Kd1
        (DualPid.pidIter m) 100 0 ((m + 1 : ℚ) * DualPid.SAMPLE_TIME)).1.integral = _
      simp only [DualPid.update, hdt, ih1]
      push_cast
      norm_num [DualPid.SAMPLE_TIME]
      ring
    · show (DualPid.update DualPid.Kp1 DualPid.Ki1 DualPid.Kd1
        (DualPid.pidIter m) 100 0 ((m + 1 : ℚ) * DualPid.SAMPLE_TIME)).1.prev_time = _
      simp only [DualPid.update]
      rw [if_neg (Nat.succ_ne_zero m)]
      push_cast
      ring_nf

/-- C1 counterexample: the concrete update sequence `pidIter` (constant error
100, one update every SAMPLE_TIME) drives the dual_pid accumulator past every
bound — no integral_limit bounds it, because `PIDController.update` commits
error * dt with no clamp. -/
theorem C1_cex_unbounded_integral :
    ¬ ∃ L : ℚ, ∀ n : ℕ, |(DualPid.pidIter n).integral| ≤ L := by
  rintro ⟨L, hL⟩
  obtain ⟨n, hn⟩ := exists_nat_gt L
  have h1 := hL n
  rw [(pidIter_spec n).1] at h1
  have h2 : |(5 : ℚ) * n| = 5 * n := abs_of_nonneg (by positivity)
  rw [h2] at h1
  have h3 : (n : ℚ) ≤ 5 * n := by nlinarith [Nat.cast_nonneg (α := ℚ) n]
  linarith

/-- C1 amended: the 1motor and directionset control loops clamp the integral
accumulator to the interval from -1000 to 1000 (their integral_limit constant
max_int) immediately after every commit of error * SAMPLE_INTERVAL, so there
the invariant holds unconditionally; the dual_pid and PID_control controllers
cited apply no clamp and their accumulator is the unbounded running sum. -/
theorem C1_integral_clamped_1motor (integral error : ℚ) :
    |OneMotor.integralStep integral error| ≤ 1000 := by
  unfold OneMotor.integralStep
  by_cases h1 : integral + error * OneMotor.SAMPLE_INTERVAL > 1000
  · rw [if_pos h1]; norm_num
  · by_cases h2 : integral + error * OneMotor.SAMPLE_INTERVAL < -1000
    · rw [if_neg h1, if_pos h2]; norm_num
    · rw [if_neg h1, if_neg h2]
      exact abs_le.mpr ⟨not_lt.mp h2, not_lt.mp h1⟩

/-- Per-transition contribution of the PID_control decoder callback. -/
def pcContrib (t : QTrans) : ℤ :=
  if aEdge t then (if t.2.1 = t.2.2 then 1 else -1) else 0

/-- One decoder step adds its contribution. -/
lemma stepPC_eq (c : ℤ) (t : QTrans) : stepPC c t = c + pcContrib t := by
  unfold stepPC pcContrib
  by_cases h1 : aEdge t
  · by_cases h2 : t.2.1 = t.2.2
    · simp [h1, h2]
    · simp only [h1, if_pos, if_true, if_neg h2]
      ring
  · simp [h1]

/-- On a valid quadrature transition the PID_control contribution is the
negated signed direction of the channel-A step. -/
lemma pcContrib_valid : ∀ t : QTrans, ValidTrans t → pcContrib t = - sdirA t := by
  decide

/-- On a valid quadrature transition the reversed transition contributes the
opposite amount. -/
lemma pcContrib_swap : ∀ t : QTrans, ValidTrans t → pcContrib (t.2, t.1) = - pcContrib t := by
  decide

/-- Reversing a valid transition yields a valid transition. -/
lemma validTrans_swap : ∀ t : QTrans, ValidTrans t → ValidTrans (t.2, t.1) := by
  decide

/-- The decoder run is the start plus the sum of per-transition contributions. -/
lemma runPC_eq (ts : List QTrans) : ∀ start : ℤ,
    runPC start ts = start + (ts.map pcContrib).sum := by
  induction ts with
  | nil => intro start; simp [runPC]
  | cons a l ih =>
    intro start
    show runPC (stepPC start a) l = _
    rw [ih (stepPC start a), stepPC_eq]
    simp [List.sum_cons]
    ring

/-- Over a valid event sequence the summed contributions are the negated net
signed channel-A transition count. -/
lemma sum_pcContrib (ts : List QTrans) (h : ∀ t ∈ ts, ValidTrans t) :
    (ts.map pcContrib).sum = - netSignedA ts := by
  induction ts with
  | nil => simp [netSignedA]
  | cons a l ih =>
    have ha := h a (List.mem_cons_self a l)
    have hl : ∀ t ∈ l, ValidTrans t := fun t ht => h t (List.mem_cons_of_mem a ht)
    simp only [List.map_cons, List.sum_cons, netSignedA] at *
    rw [pcContrib_valid a ha, ih hl]
    ring

/-- Summed contributions over the reversed motion negate those of the motion. -/
lemma sum_pcContrib_rev (ts : List QTrans) (h : ∀ t ∈ ts, ValidTrans t) :
    ((revMotion ts).map pcContrib).sum = - (ts.map pcContrib).sum := by
  induction ts with
  | nil => simp [revMotion]
  | cons a l ih =>
    have ha := h a (List.mem_cons_self a l)
    have hl : ∀ t ∈ l, ValidTrans t := fun t ht => h t (List.mem_cons_of_mem a ht)
    simp only [revMotion, List.map_cons, List.reverse_cons, List.map_append,
      List.sum_append, List.map_reverse] at *
    rw [ih hl, pcContrib_swap a ha]
    simp

/-- C5 counterexample: the single-step motion 00 to 10 followed by its reversal
is a valid event sequence with net signed transition count 0, yet the dual_pid
callback (unconditional increment on rising edges) ends at 1 and the 1motor
callback (sign from channel B alone) ends at 2 — neither round-trips to the
starting tick count 0. -/
theorem C5_cex_no_roundtrip :
    ([(((false, false), (true, false)) : QTrans),
      ((true, false), (false, false))].all fun t => decide (ValidTrans t)) = true ∧
    ([(((false, false), (true, false)) : QTrans), ((true, false), (false, false))]
      = [(((false, false), (true, false)) : QTrans)]
        ++ revMotion [((false, false), (true, false))]) ∧
    netSignedA [(((false, false), (true, false)) : QTrans),
      ((true, false), (false, false))] = 0 ∧
    runDP 0 [(((false, false), (true, false)) : QTrans),
      ((true, false), (false, false))] = 1 ∧
    runOM 0 [(((false, false), (true, false)) : QTrans),
      ((true, false), (false, false))] = 2 ∧
    (1 : ℤ) ≠ 0 ∧ (2 : ℤ) ≠ 0 := by
  refine ⟨by decide, by decide, by decide, by decide, by decide, by decide, by decide⟩

/-- C5 amended: for the PID_control decoder the property holds up to the wiring
sign convention: over every valid event sequence the tick count equals its
starting value minus the net signed number of channel-A quadrature
transitions, and processing a motion followed by its reversed motion returns
the tick count exactly to its starting value; the dual_pid callback counts
rising edges unsigned and the 1motor callback takes the sign from channel B
alone, so for those two the round-trip property fails. -/
theorem C5_decoder_roundtrip :
    (∀ (start : ℤ) (ts : List QTrans), (∀ t ∈ ts, ValidTrans t) →
      runPC start ts = start - netSignedA ts) ∧
    (∀ (start : ℤ) (ts : List QTrans), (∀ t ∈ ts, ValidTrans t) →
      runPC start (ts ++ revMotion ts) = start) := by
  constructor
  · intro start ts h
    rw [runPC_eq ts start, sum_pcContrib ts h]
    ring
  · intro start ts h
    rw [runPC_eq _ start]
    rw [List.map_append, List.sum_append, sum_pcContrib_rev ts h]
    ring

/-- Witness for C5 amended: a forward-then-reversed single step through the
PID_control decoder returns to tick count 0 and matches the signed count. -/
theorem C5_witness :
    runPC 0 ([(((false, false), (true, false)) : QTrans)]
      ++ revMotion [((false, false), (true, false))]) = 0 :=
  C5_decoder_roundtrip.2 0 [((false, false), (true, false))] (by decide)

/-- Along the counterexample run (raw rpm held at 10000 from the zero state)
the filtered value never exceeds 9996 and the stored previous raw sample is
0 or 10000. -/
lemma filterRun_cex_bound : ∀ n : ℕ,
    (PidControl.filterRun (0, 0) 10000 n).2 ≤ 9996 ∧
    ((PidControl.filterRun (0, 0) 10000 n).1 = 0 ∨
      (PidControl.filterRun (0, 0) 10000 n).1 = 10000) := by
  intro n
  induction n with
  | zero => exact ⟨by norm_num [PidControl.filterRun], Or.inl rfl⟩
  | succ m ih =>
    obtain ⟨ih1, ih2⟩ := ih
    refine ⟨?_, Or.inr rfl⟩
    show (PidControl.filterStep (PidControl.filterRun (0, 0) 10000 m) 10000).2 ≤ 9996
    simp only [PidControl.filterStep, PidControl.alpha, PidControl.v2Filt]
    rcases ih2 with h | h <;> rw [h] <;> linarith

/-- C8 counterexample: holding the raw rpm constant at 10000 from the initial
zero state, the filtered rpm of the PID_control cascade does not converge to
10000 — the first filter stage's coefficients sum to 9996/10000, so the run
is trapped at or below 9996, at distance at least 4 from the target. -/
theorem C8_cex_limit_deficit :
    ¬ TendstoQ (fun n => (PidControl.filterRun (0, 0) 10000 n).2) 10000 := by
  intro h
  obtain ⟨N, hN⟩ := h 1 (by norm_num)
  have h1 : |(PidControl.filterRun (0, 0) 10000 N).2 - 10000| < 1 := hN N le_rfl
  have h2 := (filterRun_cex_bound N).1
  have h3 : (10000 : ℚ) - (PidControl.filterRun (0, 0) 10000 N).2
      ≤ |(PidControl.filterRun (0, 0) 10000 N).2 - 10000| := by
    rw [abs_sub_comm]
    exact le_abs_self _
  linarith

/-- Constant input r through both filter stages lands exactly on 2499/2500 * r. -/
lemma v2Filt_const (r : ℚ) : PidControl.v2Filt r r = 2499/2500 * r := by
  unfold PidControl.v2Filt
  ring

/-- After the first cycle the stored previous raw sample equals the constant input. -/
lemma filterRun_fst (s0 : ℚ × ℚ) (r : ℚ) (n : ℕ) :
    (PidControl.filterRun s0 r (n + 1)).1 = r := rfl

/-- From the second cycle on, the distance to the fixed point contracts by 7/10. -/
lemma filterRun_rec (s0 : ℚ × ℚ) (r : ℚ) (n : ℕ) :
    (PidControl.filterRun s0 r (n + 2)).2 - 2499/2500 * r
      = (7/10) * ((PidControl.filterRun s0 r (n + 1)).2 - 2499/2500 * r) := by
  show (PidControl.filterStep (PidControl.filterRun s0 r (n + 1)) r).2 - _ = _
  simp only [PidControl.filterStep, PidControl.alpha, filterRun_fst, v2Filt_const]
  ring

/-- Geometric closed form of the contraction from the first cycle. -/
lemma filterRun_geom (s0 : ℚ × ℚ) (r : ℚ) : ∀ k : ℕ,
    (PidControl.filterRun s0 r (k + 1)).2 - 2499/2500 * r
      = (7/10)^k * ((PidControl.filterRun s0 r 1).2 - 2499/2500 * r) := by
  intro k
  induction k with
  | zero => simp
  | succ m ih =>
    have hrec := filterRun_rec s0 r m
    calc (PidControl.filterRun s0 r (m + 1 + 1)).2 - 2499/2500 * r
        = (7/10) * ((PidControl.filterRun s0 r (m + 1)).2 - 2499/2500 * r) := hrec
      _ = (7/10) * ((7/10)^m * ((PidControl.filterRun s0 r 1).2 - 2499/2500 * r)) := by
          rw [ih]
      _ = (7/10)^(m + 1) * ((PidControl.filterRun s0 r 1).2 - 2499/2500 * r) := by
          ring

/-- Bernoulli bound on the contraction factor. -/
lemma pow_seven_tenths_le (k : ℕ) : (7/10 : ℚ)^k ≤ 1 / (1 + k * (3/7)) := by
  have hb : 1 + (k : ℚ) * (3/7) ≤ (1 + 3/7)^k := one_add_mul_le_pow (by norm_num) k
  have hpos : (0 : ℚ) < 1 + k * (3/7) := by positivity
  have h2 : (7/10 : ℚ)^k = ((10/7 : ℚ)^k)⁻¹ := by
    rw [← inv_pow]
    norm_num
  rw [h2, one_div]
  apply inv_le_inv_of_le hpos
  calc 1 + (k : ℚ) * (3/7) ≤ (1 + 3/7)^k := hb
    _ = (10/7 : ℚ)^k := by norm_num

/-- C8 amended: the second filter stage of PID_control `control_loop` is the
convex combination alpha * v2 + (1 - alpha) * previous with alpha = 3/10 in
(0, 1], but the first stage's coefficients 0.854 + 0.0728 + 0.0728 sum to
9996/10000; consequently, holding the raw rpm constant at r from any starting
state makes the filtered rpm converge to exactly 2499/2500 * r, slightly
below r, rather than to r. -/
theorem C8_filter_convergence (r : ℚ) (s0 : ℚ × ℚ) :
    (∀ (s : ℚ × ℚ) (rpm : ℚ), (PidControl.filterStep s rpm).2
      = PidControl.alpha * PidControl.v2Filt rpm s.1
        + (1 - PidControl.alpha) * s.2) ∧
    (0 < PidControl.alpha ∧ PidControl.alpha ≤ 1) ∧
    TendstoQ (fun n => (PidControl.filterRun s0 r n).2) (2499/2500 * r) := by
  refine ⟨fun s rpm => rfl,
    ⟨by norm_num [PidControl.alpha], by norm_num [PidControl.alpha]⟩, ?_⟩
  intro ε hε
  set C := |(PidControl.filterRun s0 r 1).2 - 2499/2500 * r| with hC
  have hC0 : 0 ≤ C := abs_nonneg _
  obtain ⟨M, hM⟩ := exists_nat_gt ((7/3) * C / ε)
  refine ⟨M + 1, ?_⟩
  intro n hn
  obtain ⟨k, rfl⟩ : ∃ k, n = k + 1 := ⟨n - 1, by omega⟩
  have hkM : M ≤ k := by omega
  show |(PidControl.filterRun s0 r (k + 1)).2 - 2499/2500 * r| < ε
  have hpos : (0 : ℚ) < 1 + k * (3/7) := by positivity
  have habs : |(PidControl.filterRun s0 r (k + 1)).2 - 2499/2500 * r|
      = (7/10)^k * C := by
    rw [filterRun_geom s0 r k, abs_mul, abs_pow,
      abs_of_pos (by norm_num : (0:ℚ) < 7/10), ← hC]
  have h1 : (7/10 : ℚ)^k * C ≤ C / (1 + k * (3/7)) := by
    calc (7/10 : ℚ)^k * C ≤ 1 / (1 + k * (3/7)) * C :=
          mul_le_mul_of_nonneg_right (pow_seven_tenths_le k) hC0
      _ = C / (1 + k * (3/7)) := by ring
  have h2 : C / (1 + k * (3/7)) < ε := by
    rw [div_lt_iff hpos]
    have hk : (7/3) * C / ε < (k : ℚ) := lt_of_lt_of_le hM (by exact_mod_cast hkM)
    have hk2 : (7/3) * C < k * ε := (div_lt_iff hε).mp hk
    have hexp : ε * (1 + k * (3/7)) = ε + (3/7) * (k * ε) := by ring
    rw [hexp]
    linarith
  rw [habs]
  exact lt_of_le_of_lt h1 h2

/-- Witness for C8 amended: the theorem applied at r 10000 from the zero
state, with epsilon 1. -/
theorem C8_witness :
    ∃ N : ℕ, ∀ n, N ≤ n →
      |(fun m => (PidControl.filterRun (0, 0) 10000 m).2) n - 2499/2500 * 10000| < 1 :=
  (C8_filter_convergence 10000 (0, 0)).2.2 1 (by norm_num)
